import Mathlib

set_option linter.unusedVariables false

/-!
Verification development for the inkle tourism backend.

The definitions below are a shallow embedding of the request-orchestration
pipeline of the repository: the intent extractor, the orchestrator
(`handle_message` in `app/agents/parent_agent.py`), the reply composer
(`_compose_reply`), the places agent (`app/agents/places_agent.py`) and the
Open-Meteo weather client (`app/services/open_meteo_client.py`).

Conventions of the embedding:
* Python `float` values (temperatures, coordinates) are modelled as rationals.
* Python strings are modelled as Lean `String`; the ASCII fragments of
  `str.lower`, `str.upper`, `str.strip`, `str.split` and the regex character
  classes are modelled (the inputs exercised by this service are ASCII;
  the Unicode tables of Python are out of scope of the embedding).
* Network calls are modelled by passing the observable outcome of the call
  (or an oracle function) as an explicit argument.
* Python code that can raise an exception which the function does not catch
  is modelled with `Except`: `Except.error` marks an exception escaping the
  function.
-/

/-! ## Python string primitives (ASCII fragment) -/

/-- Python whitespace class, as used by `str.strip`, `str.split` and the
regex class backslash-s (ASCII fragment): space, tab, newline, carriage
return, vertical tab, form feed. -/
def isPySpace (c : Char) : Bool :=
  c == ' ' || c == '\t' || c == '\n' || c == '\r' || c == '\x0b' || c == '\x0c'

/-- List-level Python `str.strip`: drop leading and trailing whitespace. -/
def pyStripL (l : List Char) : List Char :=
  ((l.dropWhile isPySpace).reverse.dropWhile isPySpace).reverse

/-- Python `str.strip` on strings. -/
def pyStrip (s : String) : String :=
  String.mk (pyStripL s.data)

/-- Helper for `pySplit`: accumulates the current token (reversed). -/
def pySplitAux : List Char → List Char → List String
  | [], acc => if acc.isEmpty then [] else [String.mk acc.reverse]
  | c :: cs, acc =>
    if isPySpace c then
      if acc.isEmpty then pySplitAux cs []
      else String.mk acc.reverse :: pySplitAux cs []
    else pySplitAux cs (c :: acc)

/-- Python `str.split()` with no argument: split on runs of whitespace,
producing no empty tokens. -/
def pySplit (s : String) : List String :=
  pySplitAux s.data []

/-- Boolean list prefix test (char-by-char equality). -/
def isPrefixB : List Char → List Char → Bool
  | [], _ => true
  | _ :: _, [] => false
  | a :: as, b :: bs => a == b && isPrefixB as bs

/-- Boolean substring test on char lists: does `hay` contain `needle`
as a contiguous sublist? Models the Python operator `needle in hay`. -/
def isSubB (needle : List Char) : List Char → Bool
  | [] => needle.isEmpty
  | b :: bs => isPrefixB needle (b :: bs) || isSubB needle bs

/-- Python `needle in hay` substring containment for strings. -/
def containsSub (hay needle : String) : Bool :=
  isSubB needle.data hay.data

/-- Python `str.lower` (ASCII fragment): lowercase every character. -/
def pyLower (s : String) : String :=
  String.mk (s.data.map Char.toLower)

/-! ## Data model (`app/models/schemas.py`) -/

/-- `PlaceLocation` from `app/models/schemas.py`. -/
structure PlaceLocation where
  name : String
  latitude : ℚ
  longitude : ℚ
deriving DecidableEq

/-- `WeatherInfo` from `app/models/schemas.py`; `is_raining` is optional. -/
structure WeatherInfo where
  temperature_c : ℚ
  is_raining : Option Bool := none
deriving DecidableEq

/-- `TourismAgentResult` from `app/models/schemas.py`. -/
structure TourismAgentResult where
  reply : String
  place : Option PlaceLocation := none
  weather : Option WeatherInfo := none
  places : List String := []
deriving DecidableEq

/-! ## Temperature formatting (the f-string `.0f` in `_compose_reply`) -/

/-- Round half to even on rationals: the rounding performed by the Python
format specifier `.0f` (an exact model for inputs that are exactly
representable; Python formats the nearest double of the input).
Stated on the numerator of the fractional part: with `f` the floor of `q`,
the fractional part is `(q.num - f * q.den) / q.den`, so comparing it with
one half compares `2 * (q.num - f * q.den)` with `q.den`. -/
def rhe (q : ℚ) : ℤ :=
  let f : ℤ := q.floor
  let n : ℤ := q.num - f * q.den
  if 2 * n < (q.den : ℤ) then f
  else if (q.den : ℤ) < 2 * n then f + 1
  else if f % 2 = 0 then f else f + 1

/-- The string produced by the Python format specifier `.0f`: the rounded
integer, except that a negative value that rounds to zero prints as `-0`. -/
def fmtDeg (q : ℚ) : String :=
  if rhe q = 0 ∧ q < 0 then "-0" else toString (rhe q)

/-! ## Reply composer (`TourismParentAgent._compose_reply`) -/

/-- The rain clause of the weather line, chosen by `is_raining`
(lines 172-177 of `parent_agent.py`). -/
def rainClause (r : Option Bool) : String :=
  match r with
  | some true => "and it is currently raining."
  | some false => "and it is not raining right now."
  | none => ""

/-- The weather line of `_compose_reply` (lines 179-181): the f-string
followed by Python `.strip()`. -/
def weatherLine (city : String) (w : WeatherInfo) : String :=
  pyStrip ("In " ++ city ++ " it\x27s currently " ++ fmtDeg w.temperature_c
    ++ "°C " ++ rainClause w.is_raining)

/-- The list `lines` built by `_compose_reply` (lines 166-204). -/
def composeLines (location : PlaceLocation) (weather : Option WeatherInfo)
    (places : List String) (need_weather need_places : Bool) : List String :=
  let city := location.name
  let weatherLines : List String :=
    if need_weather then
      match weather with
      | some w => [weatherLine city w]
      | none => []
    else []
  let placeLines : List String :=
    if need_places then
      let header :=
        if need_weather && weather.isSome then
          "And these are the places you can go: - - - - -"
        else
          "In " ++ city ++ " these are the places you can go: - - - - -"
      let body :=
        if places.isEmpty then
          ["I couldn\x27t find clear tourist attractions nearby."]
        else places
      header :: body
    else []
  let ls := weatherLines ++ placeLines
  if ls.isEmpty then
    ["You asked about " ++ city ++ ", but I couldn\x27t determine whether "
      ++ "you want weather info, places to visit, or both. "
      ++ "Please ask again with more details."]
  else ls

/-- `_compose_reply`: joins the lines with newlines (line 207).
`original_message` is a parameter of the Python function; the template
path never reads it. -/
def composeReply (original_message : String) (location : PlaceLocation)
    (weather : Option WeatherInfo) (places : List String)
    (need_weather need_places : Bool) : String :=
  String.intercalate "\n" (composeLines location weather places need_weather need_places)

example :
    composeReply "m" ⟨"Bangalore", mkRat 1297 100, mkRat 7759 100⟩
      (some ⟨mkRat 122 5, some false⟩) [] true false
    = "In Bangalore it\x27s currently 24°C and it is not raining right now." := by
  decide

example : fmtDeg (mkRat (-1) 5) = "-0" := by decide

example : fmtDeg (mkRat 49 2) = "24" := by decide

/-! ## Intent extractor (`TourismParentAgent._parse_intent`, `_extract_place_name`)

The three patterns of `_extract_place_name` all have the shape
`\bKW\s+([A-Za-z\s]+?)(?:[.,!?]|$)` with `re.IGNORECASE` and are tried with
`re.search` (leftmost starting position, backtracking semantics: the greedy
`\s+` prefers to consume as much whitespace as possible, the lazy group
prefers to capture as little as possible). The functions below implement
exactly these semantics for this pattern shape. -/

/-- Regex word character backslash-w (ASCII fragment): letters, digits,
underscore. Used for the word boundary before the keyword. -/
def isWordChar (c : Char) : Bool :=
  c.isAlphanum || c == '_'

/-- The regex character class `[A-Za-z\s]` of the capture group. -/
def isPhraseChar (c : Char) : Bool :=
  c.isAlpha || isPySpace c

/-- The sentence-terminating class `[.,!?]` of the patterns. -/
def isTermPunct (c : Char) : Bool :=
  c == '.' || c == ',' || c == '!' || c == '?'

/-- Case-insensitive literal keyword match at the head of the input;
returns the rest of the input on success. -/
def kwMatch : List Char → List Char → Option (List Char)
  | [], rest => some rest
  | _ :: _, [] => none
  | k :: ks, c :: cs => if k.toLower == c.toLower then kwMatch ks cs else none

/-- The lazy capture group followed by its terminator: the shortest
nonempty prefix of characters in `[A-Za-z\s]` whose next position is the
end of the string or a character in `[.,!?]`. -/
def lazyGroup : List Char → Option (List Char)
  | [] => none
  | c :: cs =>
    if isPhraseChar c then
      match cs with
      | [] => some [c]
      | d :: _ =>
        if isTermPunct d then some [c]
        else (lazyGroup cs).map (fun g => c :: g)
    else none

/-- Backtracking after at least one whitespace character was consumed by
the greedy `\s+`: prefer to consume one more whitespace character, and on
failure start the capture group at the current position. -/
def afterWsStep : List Char → Option (List Char)
  | [] => none
  | c :: cs =>
    if isPySpace c then
      match afterWsStep cs with
      | some g => some g
      | none => lazyGroup (c :: cs)
    else lazyGroup (c :: cs)

/-- Match `\s+` (at least one whitespace) then the lazy group and the
terminator; returns the captured group. -/
def matchAfterKw : List Char → Option (List Char)
  | [] => none
  | c :: cs => if isPySpace c then afterWsStep cs else none

/-- `re.search` for the pattern `\bKW\s+([A-Za-z\s]+?)(?:[.,!?]|$)`:
scan positions left to right; `prevW` records whether the previous
character is a word character (for the boundary `\b`; the keywords start
with a letter, so the boundary holds exactly when `prevW` is false).
Returns the captured group of the leftmost full match. -/
def searchPat (kw : List Char) : Bool → List Char → Option (List Char)
  | _, [] => none
  | prevW, c :: cs =>
    match (if prevW then none else (kwMatch kw (c :: cs)).bind matchAfterKw) with
    | some g => some g
    | none => searchPat kw (isWordChar c) cs

/-- The keyword of the first pattern of `_extract_place_name`. -/
def kwGoingTo : List Char := "going to".data

/-- The keyword of the second pattern of `_extract_place_name`. -/
def kwGoTo : List Char := "go to".data

/-- The keyword of the third pattern of `_extract_place_name`. -/
def kwIn : List Char := "in".data

/-- Python `t and t[0].isupper()` from the capitalized-token fallback. -/
def firstCharUpper (t : String) : Bool :=
  match t.data with
  | [] => false
  | c :: _ => c.isUpper

/-- `TourismParentAgent._extract_place_name` (lines 125-144): try the three
patterns in order, then the last capitalized token, then the last token,
else no result. -/
def extractPlaceName (message : String) : Option String :=
  let text := pyStrip message
  match searchPat kwGoingTo false text.data with
  | some g => some (pyStrip (String.mk g))
  | none =>
    match searchPat kwGoTo false text.data with
    | some g => some (pyStrip (String.mk g))
    | none =>
      match searchPat kwIn false text.data with
      | some g => some (pyStrip (String.mk g))
      | none =>
        let tokens := pySplit text
        let caps := tokens.filter firstCharUpper
        match caps.getLast? with
        | some t => some t
        | none => tokens.getLast?

/-- The weather cue keywords of `_parse_intent` (line 103). -/
def weatherKeywords : List String :=
  ["weather", "temperature", "hot", "cold", "rain"]

/-- The place-visiting cue keywords of `_parse_intent` (lines 107-115). -/
def placesKeywords : List String :=
  ["visit", "attractions", "places to visit", "place to visit", "tourist",
    "sightseeing", "things to do"]

/-- `TourismParentAgent._parse_intent` (lines 97-123): keyword detection on
the lowercased message, the default-both rule, and place extraction. -/
def parseIntent (message : String) : Option String × Bool × Bool :=
  let lower := pyLower message
  let need_weather := weatherKeywords.any (fun w => containsSub lower w)
  let need_places := placesKeywords.any (fun w => containsSub lower w)
  let flags :=
    if !(need_weather || need_places) then (true, true)
    else (need_weather, need_places)
  (extractPlaceName message, flags.1, flags.2)

example :
    extractPlaceName "I\x27m going to Bangalore, what\x27s the weather?"
    = some "Bangalore" := by decide

example :
    parseIntent "I\x27m going to Bangalore, what\x27s the weather?"
    = (some "Bangalore", true, false) := by decide

example : extractPlaceName "going to area 51." = some "51." := by decide

example : extractPlaceName "Atlantis" = some "Atlantis" := by decide

example : extractPlaceName "places to visit in Goa" = some "Goa" := by decide

example : extractPlaceName "" = none := by decide

/-! ## Places agent (`app/agents/places_agent.py`) -/

/-- The curated table `FAMOUS_PLACES`, in its Python insertion order
(dict iteration follows insertion order). -/
def famousPlaces : List (String × List String) :=
  [("bangalore",
    ["Lalbagh Botanical Garden", "Cubbon Park", "Bangalore Palace",
      "Bannerghatta Biological Park", "Jawaharlal Nehru Planetarium",
      "ISKCON Temple", "Vidhana Soudha"]),
   ("bengaluru",
    ["Lalbagh Botanical Garden", "Cubbon Park", "Bangalore Palace",
      "Bannerghatta Biological Park", "Jawaharlal Nehru Planetarium",
      "ISKCON Temple", "Vidhana Soudha"]),
   ("delhi",
    ["Red Fort", "India Gate", "Qutub Minar", "Lotus Temple",
      "Akshardham Temple", "Humayun\x27s Tomb", "Jama Masjid"]),
   ("new delhi",
    ["Red Fort", "India Gate", "Qutub Minar", "Lotus Temple",
      "Akshardham Temple", "Humayun\x27s Tomb", "Jama Masjid"]),
   ("goa",
    ["Baga Beach", "Calangute Beach", "Fort Aguada", "Basilica of Bom Jesus",
      "Dudhsagar Falls", "Candolim Beach", "Anjuna Beach"]),
   ("mumbai",
    ["Gateway of India", "Marine Drive", "Juhu Beach", "Siddhivinayak Temple",
      "Elephanta Caves", "Chhatrapati Shivaji Maharaj Terminus",
      "Haji Ali Dargah"]),
   ("hyderabad",
    ["Charminar", "Golconda Fort", "Hussain Sagar Lake", "Ramoji Film City",
      "Salar Jung Museum", "Birla Mandir"]),
   ("chennai",
    ["Marina Beach", "Kapaleeshwarar Temple", "Fort St. George",
      "Valluvar Kottam", "Santhome Basilica"])]

/-- The denylist `banned_substrings` of the Overpass fallback
(lines 172-188 of `places_agent.py`). -/
def bannedSubstrings : List String :=
  ["hotel", "hostel", "guest house", "guesthouse", "lodge", "pg",
    "boys hostel", "girls hostel", "residency", "residence", "enterprise",
    "enterprises", "hall", "mahal", "marriage"]

/-- Does the lowercased name contain a denylisted substring? -/
def hasBanned (name : String) : Bool :=
  bannedSubstrings.any (fun bad => containsSub (pyLower name) bad)

/-- The name-collection loop of the Overpass fallback (lines 190-204):
an element is modelled by its optional `name` tag; elements without a name,
denylisted names and exact duplicates are skipped, in order.
The accumulator holds the collected names in reverse order. -/
def collectNames : List (Option String) → List String → List String
  | [], acc => acc.reverse
  | none :: es, acc => collectNames es acc
  | some n :: es, acc =>
    if hasBanned n then collectNames es acc
    else if acc.contains n then collectNames es acc
    else collectNames es (n :: acc)

/-- Lexicographic comparison of char lists by code point: the order of
Python string comparison, used by `list.sort`. -/
def listLe : List Char → List Char → Bool
  | [], _ => true
  | _ :: _, [] => false
  | a :: as, b :: bs =>
    if a.toNat < b.toNat then true
    else if b.toNat < a.toNat then false
    else listLe as bs

/-- Python string comparison (less or equal). -/
def strLe (a b : String) : Bool :=
  listLe a.data b.data

/-- Ordered insert for the sort below. -/
def orderedInsertStr (a : String) : List String → List String
  | [] => [a]
  | b :: bs => if strLe a b then a :: b :: bs else b :: orderedInsertStr a bs

/-- Sorting by Python string comparison. `names.sort()` in the source is a
stable ascending sort; the collected names are pairwise distinct (exact
duplicates were skipped), so any ascending sort produces the same list. -/
def insertionSortStr : List String → List String
  | [] => []
  | a :: as => orderedInsertStr a (insertionSortStr as)

/-- The observable outcome of the Overpass POI request in
`get_places_for_location`: either a transport/status error
(`httpx.HTTPError`, caught: lines 151-161), or the decoded list of
elements, each carrying its optional `name` tag. A malformed (undecodable)
response body is not modelled here because `resp.json()` sits outside the
`try` block; see `getCurrentWeather` for that fault, which this function
shares. -/
inductive PoiFetch where
  | httpError
  | ok (elements : List (Option String))
deriving DecidableEq

/-- `PlacesAgent.get_places_for_location` (lines 108-211): curated
substring match first, then curated loose word match, then the Overpass
fallback (collect, denylist, dedupe, sort, cap). `fetched` is the outcome
of the Overpass request; the curated branches return without it.
The search radius only parameterizes the remote query, so it does not
appear. -/
def getPlacesForLocation (location : PlaceLocation) (fetched : PoiFetch)
    (max_results : Nat := 10) : List String :=
  let locName := pyLower location.name
  match famousPlaces.find? (fun kv => containsSub locName kv.1) with
  | some kv => kv.2.take max_results
  | none =>
    match famousPlaces.find?
        (fun kv => (pySplit kv.1).any (fun word => containsSub locName word)) with
    | some kv => kv.2.take max_results
    | none =>
      match fetched with
      | .httpError => []
      | .ok elements =>
        let names := collectNames elements []
        (insertionSortStr names).take max_results

example :
    getPlacesForLocation ⟨"Goa", mkRat 0 1, mkRat 0 1⟩ .httpError
    = ["Baga Beach", "Calangute Beach", "Fort Aguada", "Basilica of Bom Jesus",
        "Dudhsagar Falls", "Candolim Beach", "Anjuna Beach"] := by decide

example :
    getPlacesForLocation ⟨"South Mumbai", mkRat 0 1, mkRat 0 1⟩ .httpError
    = ["Gateway of India", "Marine Drive", "Juhu Beach", "Siddhivinayak Temple",
        "Elephanta Caves", "Chhatrapati Shivaji Maharaj Terminus",
        "Haji Ali Dargah"] := by decide

example :
    getPlacesForLocation ⟨"Smallville", mkRat 0 1, mkRat 0 1⟩
      (.ok [some "Zoo", none, some "Grand Hotel", some "Park", some "Zoo",
        some "Art Gallery"])
    = ["Art Gallery", "Park", "Zoo"] := by decide

/-! ## Weather client (`app/services/open_meteo_client.py`) -/

/-- A minimal JSON value model for provider responses. -/
inductive Json where
  | null
  | bool (b : Bool)
  | num (q : ℚ)
  | str (s : String)
  | arr (items : List Json)
  | obj (fields : List (String × Json))

/-- Python `dict.get` on a JSON object: the value of the first binding of
the key, if any. -/
def jget (fields : List (String × Json)) (k : String) : Option Json :=
  (fields.find? (fun kv => kv.1 == k)).map (fun kv => kv.2)

/-- Python `float(x)` on a JSON value, as used on `temperature_2m` and
`precipitation`: numbers convert, booleans convert as 0 or 1, `None` and
other shapes raise `TypeError` or `ValueError` (which the call sites
catch), modelled as `none`. Numeric strings, which the provider never
sends for these fields, are not modelled. -/
def pyFloat : Json → Option ℚ
  | .num q => some q
  | .bool b => some (if b then 1 else 0)
  | _ => none

/-- The observable outcome of the Open-Meteo request: a transport/status
error (`httpx.HTTPError`, caught at lines 27-33), or a response body,
which is `none` when the body is not decodable JSON (`response.json()`
raises in that case) and otherwise the decoded value. -/
inductive FetchResult where
  | httpError
  | ok (body : Option Json)

/-- `get_current_weather` (lines 13-67 of `open_meteo_client.py`).
`Except.error e` models an exception `e` escaping the function:
`response.json()` is OUTSIDE the `try` block, so an undecodable body
raises an uncaught `json.JSONDecodeError`, and `data.get` on a non-dict
body raises an uncaught `AttributeError`. A missing or non-dict
`current` field, and ill-typed field values, are caught and degrade to
`none` as documented. -/
def getCurrentWeather (resp : FetchResult) : Except String (Option WeatherInfo) :=
  match resp with
  | .httpError => .ok none
  | .ok none => .error "json.JSONDecodeError"
  | .ok (some body) =>
    match body with
    | .obj fields =>
      match jget fields "current" with
      | some (.obj cur) =>
        match (jget cur "temperature_2m").bind pyFloat with
        | none => .ok none
        | some t =>
          let isR : Option Bool :=
            match jget cur "precipitation" with
            | none => none
            | some .null => none
            | some p =>
              match pyFloat p with
              | some q => some (decide (0 < q))
              | none => none
          .ok (some ⟨t, isR⟩)
      | _ => .ok none
    | _ => .error "AttributeError"

example :
    getCurrentWeather (.ok (some (.obj [("current",
      .obj [("temperature_2m", .num (mkRat 122 5)), ("precipitation", .num 0)])])))
    = .ok (some ⟨mkRat 122 5, some false⟩) := rfl

example : getCurrentWeather (.ok none) = .error "json.JSONDecodeError" := rfl

example : getCurrentWeather .httpError = .ok none := rfl

/-! ## Orchestrator (`TourismParentAgent.handle_message`, lines 38-93)

The three downstream collaborators are passed as oracle functions:
`geocode` models `geocode_place` (None on no match or provider error),
`weatherFor` models `WeatherAgent.get_weather_for_location` (None on
failure), `placesFor` models `PlacesAgent.get_places_for_location`. -/

/-- The prompting reply for empty input (lines 41-46). -/
def promptReply : String :=
  "Please tell me where you\x27re going and whether you want "
    ++ "weather details, places to visit, or both."

/-- The reply for an unidentifiable place (lines 50-55). -/
def couldntIdentifyReply : String :=
  "I couldn\x27t identify the place. Please mention the city "
    ++ "name clearly, for example: \x27I\x27m going to Bangalore\x27."

/-- The reply for a failed resolution (lines 64-68). Note the Unicode
right single quotation mark U+2019 in the source, not an ASCII apostrophe. -/
def unknownPlaceReply : String :=
  "It doesn’t know this place exists. Please check the spelling or try another location."

/-- `TourismParentAgent.handle_message`. The Python falsiness test
`if not place_query` is true for `None` and for the empty string. -/
def handleMessage (geocode : String → Option PlaceLocation)
    (weatherFor : PlaceLocation → Option WeatherInfo)
    (placesFor : PlaceLocation → List String)
    (message : String) : TourismAgentResult :=
  let message := pyStrip message
  if message = "" then { reply := promptReply }
  else
    match parseIntent message with
    | (place_query, need_weather, need_places) =>
      match place_query with
      | none => { reply := couldntIdentifyReply }
      | some q =>
        if q = "" then { reply := couldntIdentifyReply }
        else
          match geocode q with
          | none => { reply := unknownPlaceReply }
          | some location =>
            let weather := if need_weather then weatherFor location else none
            let places := if need_places then placesFor location else []
            { reply := composeReply message location weather places
                need_weather need_places,
              place := some location, weather := weather, places := places }

example :
    handleMessage (fun _ => none) (fun _ => none) (fun _ => []) "   "
    = { reply := promptReply } := by decide

example :
    (handleMessage (fun _ => none) (fun _ => none) (fun _ => []) "Atlantis").reply
    = unknownPlaceReply := by decide

example :
    handleMessage (fun _ => some ⟨"Bangalore", mkRat 1297 100, mkRat 7759 100⟩)
      (fun _ => some ⟨mkRat 122 5, some false⟩) (fun _ => [])
      "I\x27m going to Bangalore, what\x27s the weather?"
    = { reply := "In Bangalore it\x27s currently 24°C and it is not raining right now.",
        place := some ⟨"Bangalore", mkRat 1297 100, mkRat 7759 100⟩,
        weather := some ⟨mkRat 122 5, some false⟩, places := [] } := by decide

/-! ## Infrastructure lemmas: strings and stripping -/

lemma data_append (a b : String) : (a ++ b).data = a.data ++ b.data := rfl

lemma dropWhile_head_eq_self {p : Char → Bool} :
    ∀ l : List Char, (∀ c, l.head? = some c → p c = false) → l.dropWhile p = l
  | [], _ => rfl
  | c :: cs, h => by simp [List.dropWhile_cons, h c rfl]

lemma dropWhile_dropWhile {p : Char → Bool} :
    ∀ l : List Char, (l.dropWhile p).dropWhile p = l.dropWhile p := by
  intro l
  induction l with
  | nil => rfl
  | cons c cs ih =>
    by_cases hc : p c = true
    · simp [List.dropWhile_cons, hc, ih]
    · simp [List.dropWhile_cons, hc]

lemma dropWhile_append_all {p : Char → Bool} :
    ∀ t r : List Char, (∀ c ∈ t, p c = true) →
      List.dropWhile p (t ++ r) = List.dropWhile p r := by
  intro t
  induction t with
  | nil => intro r _; rfl
  | cons c cs ih =>
    intro r h
    have hc : p c = true := h c (by simp)
    simp only [List.cons_append, List.dropWhile_cons, hc, if_true]
    exact ih r (fun d hd => h d (by simp [hd]))

lemma dropWhile_append_of_ne {p : Char → Bool} :
    ∀ l r : List Char, l.dropWhile p ≠ [] →
      List.dropWhile p (l ++ r) = l.dropWhile p ++ r := by
  intro l
  induction l with
  | nil => intro r h; simp at h
  | cons c cs ih =>
    intro r h
    by_cases hc : p c = true
    · simp only [List.dropWhile_cons, hc, if_true] at h ⊢
      simp only [List.cons_append, List.dropWhile_cons, hc, if_true]
      exact ih r h
    · simp [List.cons_append, List.dropWhile_cons, hc]

lemma pyStripL_eq_self (l : List Char)
    (h1 : ∀ c, l.head? = some c → isPySpace c = false)
    (h2 : ∀ c, l.getLast? = some c → isPySpace c = false) :
    pyStripL l = l := by
  unfold pyStripL
  rw [dropWhile_head_eq_self l h1]
  rw [dropWhile_head_eq_self l.reverse
    (fun c hc => h2 c (by rwa [List.head?_reverse] at hc))]
  exact List.reverse_reverse l

lemma pyStrip_eq_self (s : String)
    (h1 : ∀ c, s.data.head? = some c → isPySpace c = false)
    (h2 : ∀ c, s.data.getLast? = some c → isPySpace c = false) :
    pyStrip s = s := by
  unfold pyStrip
  rw [pyStripL_eq_self s.data h1 h2]

lemma pyStripL_concat_ws (l : List Char) (c : Char) (hc : isPySpace c = true) :
    pyStripL (l ++ [c]) = pyStripL l := by
  unfold pyStripL
  by_cases h : l.dropWhile isPySpace = []
  · have hall : ∀ d ∈ l, isPySpace d = true := by
      intro d hd
      exact List.dropWhile_eq_nil_iff.mp h d hd
    rw [dropWhile_append_all l [c] hall, h]
    simp [List.dropWhile_cons, hc]
  · rw [dropWhile_append_of_ne l [c] h, List.reverse_append]
    simp [List.dropWhile_cons, hc]

lemma pyStripL_dropWhile (l : List Char) :
    pyStripL (l.dropWhile isPySpace) = pyStripL l := by
  unfold pyStripL
  rw [dropWhile_dropWhile]

/-! ## Infrastructure lemmas: the pattern matcher -/

lemma term_chars (c : Char) (h : isTermPunct c = true) :
    c = '.' ∨ c = ',' ∨ c = '!' ∨ c = '?' := by
  simp only [isTermPunct, Bool.or_eq_true, beq_iff_eq] at h
  tauto

lemma phrase_not_term (c : Char) (h : isPhraseChar c = true) :
    isTermPunct c = false := by
  by_contra hb
  have ht : isTermPunct c = true := by
    revert hb; cases isTermPunct c <;> simp
  rcases term_chars c ht with e | e | e | e <;> subst e <;> revert h <;> decide

lemma ws_chars (c : Char) (h : isPySpace c = true) :
    c = ' ' ∨ c = '\t' ∨ c = '\n' ∨ c = '\r' ∨ c = '\x0b' ∨ c = '\x0c' := by
  simp only [isPySpace, Bool.or_eq_true, beq_iff_eq] at h
  tauto

lemma ws_not_alpha (c : Char) (h : isPySpace c = true) : c.isAlpha = false := by
  rcases ws_chars c h with e | e | e | e | e | e <;> subst e <;> decide

lemma lazyGroup_spec (p : Char) (hp : isTermPunct p = true) :
    ∀ (cs : List Char) (c : Char), (∀ d ∈ c :: cs, isPhraseChar d = true) →
      lazyGroup ((c :: cs) ++ [p]) = some (c :: cs) := by
  intro cs
  induction cs with
  | nil =>
    intro c h
    have hc : isPhraseChar c = true := h c (by simp)
    simp [lazyGroup, hc, hp]
  | cons d ds ih =>
    intro c h
    have hc : isPhraseChar c = true := h c (by simp)
    have hd : isPhraseChar d = true := h d (by simp)
    have hdt : isTermPunct d = false := phrase_not_term d hd
    have hrec : lazyGroup ((d :: ds) ++ [p]) = some (d :: ds) :=
      ih d (fun e he => h e (by
        rcases List.mem_cons.mp he with rfl | hm
        · simp
        · simp [hm]))
    have e1 : lazyGroup ((c :: d :: ds) ++ [p]) =
        if isPhraseChar c then
          (if isTermPunct d then some [c]
            else (lazyGroup ((d :: ds) ++ [p])).map (fun g => c :: g))
        else none := rfl
    rw [e1, hc, hdt, hrec]
    simp

lemma afterWsStep_spec (p : Char) (hp : isTermPunct p = true) :
    ∀ l : List Char, (∀ c ∈ l, isPhraseChar c = true) →
      (∃ c ∈ l, c.isAlpha = true) →
      afterWsStep (l ++ [p]) = some (l.dropWhile isPySpace) := by
  intro l
  induction l with
  | nil => intro _ h2; simp at h2
  | cons c cs ih =>
    intro h1 h2
    have e1 : afterWsStep ((c :: cs) ++ [p]) =
        if isPySpace c then
          (match afterWsStep (cs ++ [p]) with
            | some g => some g
            | none => lazyGroup ((c :: cs) ++ [p]))
        else lazyGroup ((c :: cs) ++ [p]) := rfl
    by_cases hws : isPySpace c = true
    · have hcna : c.isAlpha = false := ws_not_alpha c hws
      have h2' : ∃ d ∈ cs, d.isAlpha = true := by
        rcases h2 with ⟨d, hd, hda⟩
        rcases List.mem_cons.mp hd with rfl | hmem
        · rw [hda] at hcna; cases hcna
        · exact ⟨d, hmem, hda⟩
      have hrec : afterWsStep (cs ++ [p]) = some (cs.dropWhile isPySpace) :=
        ih (fun e he => h1 e (List.mem_cons_of_mem _ he)) h2'
      rw [e1, hws, hrec]
      simp [List.dropWhile_cons, hws]
    · have hbool : isPySpace c = false := by
        revert hws; cases isPySpace c <;> simp
      have hlz : lazyGroup ((c :: cs) ++ [p]) = some (c :: cs) :=
        lazyGroup_spec p hp cs c h1
      rw [e1, hbool, hlz]
      simp [List.dropWhile_cons, hbool]

lemma searchPat_head (kw : List Char) (c : Char) (cs g : List Char)
    (h : (kwMatch kw (c :: cs)).bind matchAfterKw = some g) :
    searchPat kw false (c :: cs) = some g := by
  have e1 : searchPat kw false (c :: cs) =
      match (kwMatch kw (c :: cs)).bind matchAfterKw with
      | some g => some g
      | none => searchPat kw (isWordChar c) cs := rfl
  rw [e1, h]

/-! ## Infrastructure lemmas: place-phrase extraction -/

lemma extract_unfold (msg : String) :
    extractPlaceName msg =
      match searchPat kwGoingTo false (pyStrip msg).data with
      | some g => some (pyStrip (String.mk g))
      | none =>
        match searchPat kwGoTo false (pyStrip msg).data with
        | some g => some (pyStrip (String.mk g))
        | none =>
          match searchPat kwIn false (pyStrip msg).data with
          | some g => some (pyStrip (String.mk g))
          | none =>
            match ((pySplit (pyStrip msg)).filter firstCharUpper).getLast? with
            | some t => some t
            | none => (pySplit (pyStrip msg)).getLast? := rfl

lemma extract_eq_p1 (msg : String) (g : List Char)
    (h : searchPat kwGoingTo false (pyStrip msg).data = some g) :
    extractPlaceName msg = some (pyStrip (String.mk g)) := by
  rw [extract_unfold, h]

lemma extract_eq_p2 (msg : String) (g : List Char)
    (h1 : searchPat kwGoingTo false (pyStrip msg).data = none)
    (h2 : searchPat kwGoTo false (pyStrip msg).data = some g) :
    extractPlaceName msg = some (pyStrip (String.mk g)) := by
  rw [extract_unfold, h1, h2]

lemma extract_eq_p3 (msg : String) (g : List Char)
    (h1 : searchPat kwGoingTo false (pyStrip msg).data = none)
    (h2 : searchPat kwGoTo false (pyStrip msg).data = none)
    (h3 : searchPat kwIn false (pyStrip msg).data = some g) :
    extractPlaceName msg = some (pyStrip (String.mk g)) := by
  rw [extract_unfold, h1, h2, h3]

lemma extract_eq_caps (msg : String) (t : String)
    (h1 : searchPat kwGoingTo false (pyStrip msg).data = none)
    (h2 : searchPat kwGoTo false (pyStrip msg).data = none)
    (h3 : searchPat kwIn false (pyStrip msg).data = none)
    (h4 : ((pySplit (pyStrip msg)).filter firstCharUpper).getLast? = some t) :
    extractPlaceName msg = some t := by
  rw [extract_unfold, h1, h2, h3, h4]

lemma extract_eq_tokens (msg : String)
    (h1 : searchPat kwGoingTo false (pyStrip msg).data = none)
    (h2 : searchPat kwGoTo false (pyStrip msg).data = none)
    (h3 : searchPat kwIn false (pyStrip msg).data = none)
    (h4 : ((pySplit (pyStrip msg)).filter firstCharUpper).getLast? = none) :
    extractPlaceName msg = (pySplit (pyStrip msg)).getLast? := by
  rw [extract_unfold, h1, h2, h3, h4]

lemma getLast?_none_eq_nil {α : Type} : ∀ l : List α, l.getLast? = none → l = []
  | [], _ => rfl
  | a :: as, h => by
    have hs : (a :: as).getLast?.isSome = true := by
      rw [List.getLast?_isSome]
      simp
    rw [h] at hs
    cases hs

lemma extract_none_tokens (msg : String)
    (h : extractPlaceName msg = none) : pySplit (pyStrip msg) = [] := by
  rw [extract_unfold] at h
  cases e1 : searchPat kwGoingTo false (pyStrip msg).data with
  | some g => rw [e1] at h; cases h
  | none =>
  rw [e1] at h
  cases e2 : searchPat kwGoTo false (pyStrip msg).data with
  | some g => rw [e2] at h; cases h
  | none =>
  rw [e2] at h
  cases e3 : searchPat kwIn false (pyStrip msg).data with
  | some g => rw [e3] at h; cases h
  | none =>
  rw [e3] at h
  cases e4 : ((pySplit (pyStrip msg)).filter firstCharUpper).getLast? with
  | some t => rw [e4] at h; cases h
  | none =>
  rw [e4] at h
  exact getLast?_none_eq_nil _ h

lemma pyStrip_dropWhile_eq (X : String) :
    pyStrip (String.mk (X.data.dropWhile isPySpace)) = pyStrip X :=
  congrArg String.mk (pyStripL_dropWhile X.data)

lemma extract_going_to (X : String)
    (hall : ∀ c ∈ X.data, isPhraseChar c = true)
    (halpha : ∃ c ∈ X.data, c.isAlpha = true) :
    extractPlaceName ("going to " ++ X ++ ".") = some (pyStrip X) := by
  have hdata : ("going to " ++ X ++ ".").data
      = 'g' :: 'o' :: 'i' :: 'n' :: 'g' :: ' ' :: 't' :: 'o' :: ' '
        :: (X.data ++ ['.']) := by
    simp only [data_append, List.append_assoc]
    rfl
  have hdata2 : ("going to " ++ X ++ ".").data
      = ("going to " ++ X).data ++ ['.'] := rfl
  have hstrip : pyStrip ("going to " ++ X ++ ".") = "going to " ++ X ++ "." := by
    refine pyStrip_eq_self _ ?_ ?_
    · intro c hc
      rw [hdata] at hc
      simp only [List.head?_cons, Option.some.injEq] at hc
      subst hc; decide
    · intro c hc
      rw [hdata2, List.getLast?_concat] at hc
      simp only [Option.some.injEq] at hc
      subst hc; decide
  have hma : matchAfterKw (' ' :: (X.data ++ ['.']))
      = some (X.data.dropWhile isPySpace) := by
    have e : matchAfterKw (' ' :: (X.data ++ ['.']))
        = if isPySpace ' ' then afterWsStep (X.data ++ ['.']) else none := rfl
    rw [e]
    simp only [show isPySpace ' ' = true from rfl, if_true]
    exact afterWsStep_spec '.' (by decide) X.data hall halpha
  have hkw : kwMatch kwGoingTo
      ('g' :: 'o' :: 'i' :: 'n' :: 'g' :: ' ' :: 't' :: 'o' :: ' '
        :: (X.data ++ ['.']))
      = some (' ' :: (X.data ++ ['.'])) := rfl
  have hsp : searchPat kwGoingTo false (pyStrip ("going to " ++ X ++ ".")).data
      = some (X.data.dropWhile isPySpace) := by
    rw [hstrip, hdata]
    refine searchPat_head _ _ _ _ ?_
    rw [hkw]
    simpa using hma
  rw [extract_eq_p1 _ _ hsp]
  rw [pyStrip_dropWhile_eq]

lemma extract_go_to (X : String)
    (hall : ∀ c ∈ X.data, isPhraseChar c = true)
    (halpha : ∃ c ∈ X.data, c.isAlpha = true)
    (hnone1 : searchPat kwGoingTo false (pyStrip ("go to " ++ X ++ ",")).data = none) :
    extractPlaceName ("go to " ++ X ++ ",") = some (pyStrip X) := by
  have hdata : ("go to " ++ X ++ ",").data
      = 'g' :: 'o' :: ' ' :: 't' :: 'o' :: ' ' :: (X.data ++ [',']) := by
    simp only [data_append, List.append_assoc]
    rfl
  have hdata2 : ("go to " ++ X ++ ",").data
      = ("go to " ++ X).data ++ [','] := rfl
  have hstrip : pyStrip ("go to " ++ X ++ ",") = "go to " ++ X ++ "," := by
    refine pyStrip_eq_self _ ?_ ?_
    · intro c hc
      rw [hdata] at hc
      simp only [List.head?_cons, Option.some.injEq] at hc
      subst hc; decide
    · intro c hc
      rw [hdata2, List.getLast?_concat] at hc
      simp only [Option.some.injEq] at hc
      subst hc; decide
  have hma : matchAfterKw (' ' :: (X.data ++ [',']))
      = some (X.data.dropWhile isPySpace) := by
    have e : matchAfterKw (' ' :: (X.data ++ [',']))
        = if isPySpace ' ' then afterWsStep (X.data ++ [',']) else none := rfl
    rw [e]
    simp only [show isPySpace ' ' = true from rfl, if_true]
    exact afterWsStep_spec ',' (by decide) X.data hall halpha
  have hkw : kwMatch kwGoTo
      ('g' :: 'o' :: ' ' :: 't' :: 'o' :: ' ' :: (X.data ++ [',']))
      = some (' ' :: (X.data ++ [','])) := rfl
  have hsp : searchPat kwGoTo false (pyStrip ("go to " ++ X ++ ",")).data
      = some (X.data.dropWhile isPySpace) := by
    rw [hstrip, hdata]
    refine searchPat_head _ _ _ _ ?_
    rw [hkw]
    simpa using hma
  rw [extract_eq_p2 _ _ hnone1 hsp]
  rw [pyStrip_dropWhile_eq]

lemma extract_in (X : String)
    (hall : ∀ c ∈ X.data, isPhraseChar c = true)
    (halpha : ∃ c ∈ X.data, c.isAlpha = true)
    (hnone1 : searchPat kwGoingTo false (pyStrip ("in " ++ X ++ "?")).data = none)
    (hnone2 : searchPat kwGoTo false (pyStrip ("in " ++ X ++ "?")).data = none) :
    extractPlaceName ("in " ++ X ++ "?") = some (pyStrip X) := by
  have hdata : ("in " ++ X ++ "?").data
      = 'i' :: 'n' :: ' ' :: (X.data ++ ['?']) := by
    simp only [data_append, List.append_assoc]
    rfl
  have hdata2 : ("in " ++ X ++ "?").data
      = ("in " ++ X).data ++ ['?'] := rfl
  have hstrip : pyStrip ("in " ++ X ++ "?") = "in " ++ X ++ "?" := by
    refine pyStrip_eq_self _ ?_ ?_
    · intro c hc
      rw [hdata] at hc
      simp only [List.head?_cons, Option.some.injEq] at hc
      subst hc; decide
    · intro c hc
      rw [hdata2, List.getLast?_concat] at hc
      simp only [Option.some.injEq] at hc
      subst hc; decide
  have hma : matchAfterKw (' ' :: (X.data ++ ['?']))
      = some (X.data.dropWhile isPySpace) := by
    have e : matchAfterKw (' ' :: (X.data ++ ['?']))
        = if isPySpace ' ' then afterWsStep (X.data ++ ['?']) else none := rfl
    rw [e]
    simp only [show isPySpace ' ' = true from rfl, if_true]
    exact afterWsStep_spec '?' (by decide) X.data hall halpha
  have hkw : kwMatch kwIn ('i' :: 'n' :: ' ' :: (X.data ++ ['?']))
      = some (' ' :: (X.data ++ ['?'])) := rfl
  have hsp : searchPat kwIn false (pyStrip ("in " ++ X ++ "?")).data
      = some (X.data.dropWhile isPySpace) := by
    rw [hstrip, hdata]
    refine searchPat_head _ _ _ _ ?_
    rw [hkw]
    simpa using hma
  rw [extract_eq_p3 _ _ hnone1 hnone2 hsp]
  rw [pyStrip_dropWhile_eq]

/-! ## Infrastructure lemmas: the weather line -/

lemma str_ext (a b : String) (h : a.data = b.data) : a = b := by
  cases a
  cases b
  exact congrArg String.mk h

lemma pyStripL_inner (core : List Char) (trail : List Char)
    (h1 : ∀ c, core.head? = some c → isPySpace c = false)
    (h2 : ∀ c, core.getLast? = some c → isPySpace c = false)
    (ht : ∀ c ∈ trail, isPySpace c = true) :
    pyStripL (core ++ trail) = core := by
  induction trail using List.reverseRecOn with
  | nil =>
    rw [List.append_nil]
    exact pyStripL_eq_self core h1 h2
  | append_singleton ts c ih =>
    rw [← List.append_assoc]
    rw [pyStripL_concat_ws (core ++ ts) c (ht c (by simp))]
    exact ih (fun d hd => ht d (by simp [hd]))

/-- The trailing clause of the weather line as the claim states it: a
leading space then the rain clause, or nothing when `is_raining` is null. -/
def rainSuffix (r : Option Bool) : String :=
  match r with
  | some true => " and it is currently raining."
  | some false => " and it is not raining right now."
  | none => ""

lemma weatherLine_eq (city : String) (t : ℚ) (r : Option Bool) :
    weatherLine city ⟨t, r⟩
      = "In " ++ city ++ " it\x27s currently " ++ fmtDeg t ++ "°C" ++ rainSuffix r := by
  cases r with
  | none =>
    show pyStrip ("In " ++ city ++ " it\x27s currently " ++ fmtDeg t ++ "°C " ++ "") = _
    apply str_ext
    show pyStripL ("In " ++ city ++ " it\x27s currently " ++ fmtDeg t ++ "°C " ++ "").data = _
    have hsplit : ("In " ++ city ++ " it\x27s currently " ++ fmtDeg t ++ "°C " ++ "").data
        = ("In " ++ city ++ " it\x27s currently " ++ fmtDeg t ++ "°C" ++ rainSuffix none).data
          ++ [' '] := by
      simp only [data_append, List.append_assoc, List.append_nil]
      rfl
    rw [hsplit]
    apply pyStripL_inner
    · intro c hc
      have hh : ("In " ++ city ++ " it\x27s currently " ++ fmtDeg t ++ "°C"
          ++ rainSuffix none).data.head? = some 'I' := by
        simp only [data_append, List.append_assoc]
        rfl
      rw [hh] at hc
      simp only [Option.some.injEq] at hc
      subst hc; decide
    · intro c hc
      have hg : ("In " ++ city ++ " it\x27s currently " ++ fmtDeg t ++ "°C"
          ++ rainSuffix none).data
          = ("In " ++ city ++ " it\x27s currently " ++ fmtDeg t ++ "°").data ++ ['C'] := by
        simp only [data_append, List.append_assoc, List.append_nil]
        rfl
      rw [hg, List.getLast?_concat] at hc
      simp only [Option.some.injEq] at hc
      subst hc; decide
    · intro c hc
      simp only [List.mem_singleton] at hc
      subst hc; rfl
  | some b =>
    cases b with
    | true =>
      show pyStrip ("In " ++ city ++ " it\x27s currently " ++ fmtDeg t ++ "°C "
        ++ "and it is currently raining.") = _
      apply str_ext
      show pyStripL ("In " ++ city ++ " it\x27s currently " ++ fmtDeg t ++ "°C "
        ++ "and it is currently raining.").data = _
      have hsplit : ("In " ++ city ++ " it\x27s currently " ++ fmtDeg t ++ "°C "
          ++ "and it is currently raining.").data
          = ("In " ++ city ++ " it\x27s currently " ++ fmtDeg t ++ "°C"
            ++ rainSuffix (some true)).data ++ [] := by
        simp only [data_append, List.append_assoc, List.append_nil]
        rfl
      rw [hsplit]
      apply pyStripL_inner
      · intro c hc
        have hh : ("In " ++ city ++ " it\x27s currently " ++ fmtDeg t ++ "°C"
            ++ rainSuffix (some true)).data.head? = some 'I' := by
          simp only [data_append, List.append_assoc]
          rfl
        rw [hh] at hc
        simp only [Option.some.injEq] at hc
        subst hc; decide
      · intro c hc
        have hg : ("In " ++ city ++ " it\x27s currently " ++ fmtDeg t ++ "°C"
            ++ rainSuffix (some true)).data
            = (("In " ++ city ++ " it\x27s currently " ++ fmtDeg t ++ "°C"
              ++ " and it is currently raining").data) ++ ['.'] := by
          simp only [data_append, List.append_assoc]
          rfl
        rw [hg, List.getLast?_concat] at hc
        simp only [Option.some.injEq] at hc
        subst hc; decide
      · intro c hc
        cases hc
    | false =>
      show pyStrip ("In " ++ city ++ " it\x27s currently " ++ fmtDeg t ++ "°C "
        ++ "and it is not raining right now.") = _
      apply str_ext
      show pyStripL ("In " ++ city ++ " it\x27s currently " ++ fmtDeg t ++ "°C "
        ++ "and it is not raining right now.").data = _
      have hsplit : ("In " ++ city ++ " it\x27s currently " ++ fmtDeg t ++ "°C "
          ++ "and it is not raining right now.").data
          = ("In " ++ city ++ " it\x27s currently " ++ fmtDeg t ++ "°C"
            ++ rainSuffix (some false)).data ++ [] := by
        simp only [data_append, List.append_assoc, List.append_nil]
        rfl
      rw [hsplit]
      apply pyStripL_inner
      · intro c hc
        have hh : ("In " ++ city ++ " it\x27s currently " ++ fmtDeg t ++ "°C"
            ++ rainSuffix (some false)).data.head? = some 'I' := by
          simp only [data_append, List.append_assoc]
          rfl
        rw [hh] at hc
        simp only [Option.some.injEq] at hc
        subst hc; decide
      · intro c hc
        have hg : ("In " ++ city ++ " it\x27s currently " ++ fmtDeg t ++ "°C"
            ++ rainSuffix (some false)).data
            = (("In " ++ city ++ " it\x27s currently " ++ fmtDeg t ++ "°C"
              ++ " and it is not raining right now").data) ++ ['.'] := by
          simp only [data_append, List.append_assoc]
          rfl
        rw [hg, List.getLast?_concat] at hc
        simp only [Option.some.injEq] at hc
        subst hc; decide
      · intro c hc
        cases hc

/-! ## Infrastructure lemmas: the rounding is to a nearest integer -/

lemma rhe_nearest (q : ℚ) : |q - ((rhe q : ℤ) : ℚ)| ≤ 1 / 2 := by
  have hfeq : q.floor = ⌊q⌋ := (Rat.floor_def' q).trans Rat.floor_def.symm
  have hfl : ((q.floor : ℤ) : ℚ) ≤ q := by rw [hfeq]; exact Int.floor_le q
  have hfu : q < ((q.floor : ℤ) : ℚ) + 1 := by
    rw [hfeq]; exact_mod_cast Int.lt_floor_add_one q
  have hd : (0 : ℚ) < (q.den : ℚ) := by exact_mod_cast q.den_pos
  have hnum : (q.num : ℚ) = q * (q.den : ℚ) :=
    (div_eq_iff (ne_of_gt hd)).mp (Rat.num_div_den q)
  have key : (q - ((q.floor : ℤ) : ℚ)) * (q.den : ℚ)
      = ((q.num - q.floor * q.den : ℤ) : ℚ) := by
    push_cast
    rw [sub_mul, ← hnum]
  simp only [rhe]
  split_ifs with h1 h2 h3
  · have h1' : 2 * ((q.num - q.floor * q.den : ℤ) : ℚ) < (q.den : ℚ) := by
      exact_mod_cast h1
    rw [abs_le]
    constructor
    · linarith
    · have hm : (2 * (q - ((q.floor : ℤ) : ℚ))) * (q.den : ℚ) < 1 * (q.den : ℚ) := by
        rw [mul_assoc, key]
        linarith
      have := (mul_lt_mul_right hd).mp hm
      linarith
  · have h2' : (q.den : ℚ) < 2 * ((q.num - q.floor * q.den : ℤ) : ℚ) := by
      exact_mod_cast h2
    rw [abs_le]
    push_cast
    constructor
    · have hm : (1 : ℚ) * (q.den : ℚ) < (2 * (q - ((q.floor : ℤ) : ℚ))) * (q.den : ℚ) := by
        rw [mul_assoc, key]
        linarith
      have := (mul_lt_mul_right hd).mp hm
      linarith
    · linarith
  · have heq : (2 : ℤ) * (q.num - q.floor * q.den) = (q.den : ℤ) :=
      le_antisymm (not_lt.mp h2) (not_lt.mp h1)
    have heq' : 2 * ((q.num - q.floor * q.den : ℤ) : ℚ) = (q.den : ℚ) := by
      exact_mod_cast heq
    have hm : (2 * (q - ((q.floor : ℤ) : ℚ))) * (q.den : ℚ) = 1 * (q.den : ℚ) := by
      rw [mul_assoc, key]
      linarith
    have hhalf := mul_right_cancel₀ (ne_of_gt hd) hm
    rw [abs_le]
    constructor
    · linarith
    · linarith
  · have heq : (2 : ℤ) * (q.num - q.floor * q.den) = (q.den : ℤ) :=
      le_antisymm (not_lt.mp h2) (not_lt.mp h1)
    have heq' : 2 * ((q.num - q.floor * q.den : ℤ) : ℚ) = (q.den : ℚ) := by
      exact_mod_cast heq
    have hm : (2 * (q - ((q.floor : ℤ) : ℚ))) * (q.den : ℚ) = 1 * (q.den : ℚ) := by
      rw [mul_assoc, key]
      linarith
    have hhalf := mul_right_cancel₀ (ne_of_gt hd) hm
    rw [abs_le]
    push_cast
    constructor
    · linarith
    · linarith

/-! ## Infrastructure lemmas: the places fallback pipeline -/

lemma listLe_cons (a b : Char) (as bs : List Char) :
    listLe (a :: as) (b :: bs)
      = if a.toNat < b.toNat then true
        else if b.toNat < a.toNat then false
        else listLe as bs := rfl

lemma listLe_total : ∀ as bs : List Char, listLe as bs = true ∨ listLe bs as = true := by
  intro as
  induction as with
  | nil => intro bs; left; rfl
  | cons a as ih =>
    intro bs
    cases bs with
    | nil => right; rfl
    | cons b bs =>
      by_cases x1 : a.toNat < b.toNat
      · left; simp [listLe_cons, x1]
      · by_cases x2 : b.toNat < a.toNat
        · right; simp [listLe_cons, x2]
        · rcases ih bs with h | h
          · left; simp [listLe_cons, x1, x2, h]
          · right; simp [listLe_cons, x1, x2, h]

lemma listLe_trans :
    ∀ as bs cs : List Char, listLe as bs = true → listLe bs cs = true →
      listLe as cs = true := by
  intro as
  induction as with
  | nil => intro bs cs _ _; rfl
  | cons a as ih =>
    intro bs cs h1 h2
    cases bs with
    | nil => simp [listLe] at h1
    | cons b bs =>
      cases cs with
      | nil => simp [listLe] at h2
      | cons c cs =>
        rw [listLe_cons] at h1 h2 ⊢
        by_cases x1 : a.toNat < b.toNat
        · by_cases y1 : b.toNat < c.toNat
          · simp [lt_trans x1 y1]
          · by_cases y2 : c.toNat < b.toNat
            · simp [y1, y2] at h2
            · have hbc : b.toNat = c.toNat := le_antisymm (not_lt.mp y2) (not_lt.mp y1)
              simp [hbc ▸ x1]
        · by_cases x2 : b.toNat < a.toNat
          · simp [x1, x2] at h1
          · have hab : a.toNat = b.toNat := le_antisymm (not_lt.mp x2) (not_lt.mp x1)
            simp only [x1, x2, if_false] at h1
            by_cases y1 : b.toNat < c.toNat
            · simp [hab ▸ y1]
            · by_cases y2 : c.toNat < b.toNat
              · simp [y1, y2] at h2
              · have hbc : b.toNat = c.toNat := le_antisymm (not_lt.mp y2) (not_lt.mp y1)
                simp only [y1, y2, if_false] at h2
                have hac : a.toNat = c.toNat := hab.trans hbc
                simp only [show ¬a.toNat < c.toNat from by rw [hac]; exact lt_irrefl _,
                  show ¬c.toNat < a.toNat from by rw [hac]; exact lt_irrefl _, if_false]
                exact ih bs cs h1 h2

lemma strLe_total (a b : String) : strLe a b = true ∨ strLe b a = true :=
  listLe_total a.data b.data

lemma strLe_trans {a b c : String} (h1 : strLe a b = true) (h2 : strLe b c = true) :
    strLe a c = true :=
  listLe_trans a.data b.data c.data h1 h2

/-- The sortedness predicate for the fallback list: ascending in Python
string order. -/
def StrSorted (l : List String) : Prop :=
  l.Pairwise (fun x y => strLe x y = true)

lemma orderedInsertStr_perm (a : String) :
    ∀ l : List String, (orderedInsertStr a l).Perm (a :: l) := by
  intro l
  induction l with
  | nil => exact List.Perm.refl _
  | cons b bs ih =>
    unfold orderedInsertStr
    by_cases h : strLe a b = true
    · simp [h]
    · simp only [h, if_false]
      exact (List.Perm.cons b ih).trans (List.Perm.swap a b bs)

lemma insertionSortStr_perm :
    ∀ l : List String, (insertionSortStr l).Perm l := by
  intro l
  induction l with
  | nil => exact List.Perm.refl _
  | cons a as ih =>
    unfold insertionSortStr
    exact (orderedInsertStr_perm a (insertionSortStr as)).trans (List.Perm.cons a ih)

lemma orderedInsertStr_sorted (a : String) :
    ∀ l : List String, StrSorted l → StrSorted (orderedInsertStr a l) := by
  intro l
  induction l with
  | nil =>
    intro _
    exact List.pairwise_singleton _ _
  | cons b bs ih =>
    intro h
    rcases List.pairwise_cons.mp h with ⟨hb, hbs⟩
    unfold orderedInsertStr
    by_cases hab : strLe a b = true
    · simp only [hab, if_true]
      refine List.pairwise_cons.mpr ⟨?_, h⟩
      intro x hx
      rcases List.mem_cons.mp hx with rfl | hxm
      · exact hab
      · exact strLe_trans hab (hb x hxm)
    · simp only [hab, if_false]
      refine List.pairwise_cons.mpr ⟨?_, ih hbs⟩
      intro x hx
      have hx' : x ∈ a :: bs := (orderedInsertStr_perm a bs).mem_iff.mp hx
      rcases List.mem_cons.mp hx' with rfl | hxm
      · rcases strLe_total x b with h' | h'
        · exact absurd h' hab
        · exact h'
      · exact hb x hxm

lemma insertionSortStr_sorted :
    ∀ l : List String, StrSorted (insertionSortStr l) := by
  intro l
  induction l with
  | nil => exact List.Pairwise.nil
  | cons a as ih =>
    unfold insertionSortStr
    exact orderedInsertStr_sorted a _ ih

lemma collectNames_nodup :
    ∀ (es : List (Option String)) (acc : List String),
      acc.Nodup → (collectNames es acc).Nodup := by
  intro es
  induction es with
  | nil => intro acc h; exact List.nodup_reverse.mpr h
  | cons e es ih =>
    intro acc h
    cases e with
    | none => exact ih acc h
    | some n =>
      unfold collectNames
      by_cases hb : hasBanned n = true
      · simp only [hb, if_true]
        exact ih acc h
      · simp only [hb, if_false]
        by_cases hc : acc.contains n = true
        · simp only [hc, if_true]
          exact ih acc h
        · simp only [hc, if_false]
          refine ih (n :: acc) (List.nodup_cons.mpr ⟨?_, h⟩)
          intro hmem
          exact hc (List.elem_iff.mpr hmem)

lemma collectNames_mem :
    ∀ (es : List (Option String)) (acc : List String) (n : String),
      n ∈ collectNames es acc → some n ∈ es ∨ n ∈ acc := by
  intro es
  induction es with
  | nil =>
    intro acc n h
    right
    exact List.mem_reverse.mp h
  | cons e es ih =>
    intro acc n h
    cases e with
    | none =>
      rcases ih acc n h with h' | h'
      · exact Or.inl (List.mem_cons_of_mem _ h')
      · exact Or.inr h'
    | some m =>
      unfold collectNames at h
      by_cases hb : hasBanned m = true
      · simp only [hb, if_true] at h
        rcases ih acc n h with h' | h'
        · exact Or.inl (List.mem_cons_of_mem _ h')
        · exact Or.inr h'
      · simp only [hb, if_false] at h
        by_cases hc : acc.contains m = true
        · simp only [hc, if_true] at h
          rcases ih acc n h with h' | h'
          · exact Or.inl (List.mem_cons_of_mem _ h')
          · exact Or.inr h'
        · simp only [hc, if_false] at h
          rcases ih (m :: acc) n h with h' | h'
          · exact Or.inl (List.mem_cons_of_mem _ h')
          · rcases List.mem_cons.mp h' with rfl | h''
            · exact Or.inl (List.mem_cons_self _ _)
            · exact Or.inr h''

lemma collectNames_clean :
    ∀ (es : List (Option String)) (acc : List String) (n : String),
      (∀ a ∈ acc, hasBanned a = false) → n ∈ collectNames es acc →
        hasBanned n = false := by
  intro es
  induction es with
  | nil =>
    intro acc n hacc h
    exact hacc n (List.mem_reverse.mp h)
  | cons e es ih =>
    intro acc n hacc h
    cases e with
    | none => exact ih acc n hacc h
    | some m =>
      unfold collectNames at h
      by_cases hb : hasBanned m = true
      · simp only [hb, if_true] at h
        exact ih acc n hacc h
      · simp only [hb, if_false] at h
        by_cases hc : acc.contains m = true
        · simp only [hc, if_true] at h
          exact ih acc n hacc h
        · simp only [hc, if_false] at h
          refine ih (m :: acc) n ?_ h
          intro a ha
          rcases List.mem_cons.mp ha with rfl | ha'
          · exact Bool.eq_false_iff.mpr hb
          · exact hacc a ha'

/-! ## Claim theorems -/

/-- C1 counterexample: at temperature -0.2 (with is_raining false) the code
prints `-0`, while the nearest whole degree is 0 (indeed -0.2 lies strictly
between -1/2 and 1/2), whose integer rendering is `0`; the composed reply
is therefore not the line the claim prescribes. -/
theorem C1_counterexample :
    composeReply "m" ⟨"Oslo", mkRat 0 1, mkRat 0 1⟩
      (some ⟨mkRat (-1) 5, some false⟩) [] true false
      = "In Oslo it\x27s currently -0°C and it is not raining right now."
    ∧ rhe (mkRat (-1) 5) = 0
    ∧ toString (0 : ℤ) = "0"
    ∧ mkRat (-1) 2 < mkRat (-1) 5
    ∧ mkRat (-1) 5 < mkRat 1 2
    ∧ composeReply "m" ⟨"Oslo", mkRat 0 1, mkRat 0 1⟩
        (some ⟨mkRat (-1) 5, some false⟩) [] true false
      ≠ "In Oslo it\x27s currently 0°C and it is not raining right now." := by
  decide

/-- C1 (amended): with wants_weather true and weather present, the first
line of the composed reply is the weather line stated literally in the
theorem (city, then the rounded temperature, then °C), followed by the
rain clause chosen by is_raining (omitted, and the line trimmed, when
null), where the printed degree value is temperature_c rounded to a
nearest whole degree with ties to even, rendered as -0 when a negative
temperature rounds to zero (Python .0f formatting); the Bangalore example
of the claim holds as stated. -/
theorem C1_weather_line :
    ∀ (city : String) (lat lon t : ℚ) (r : Option Bool)
      (places : List String) (np : Bool),
      (composeLines ⟨city, lat, lon⟩ (some ⟨t, r⟩) places true np).head?
        = some ("In " ++ city ++ " it\x27s currently " ++ fmtDeg t ++ "°C"
            ++ rainSuffix r)
      ∧ |t - ((rhe t : ℤ) : ℚ)| ≤ 1 / 2
      ∧ fmtDeg t = (if rhe t = 0 ∧ t < 0 then "-0" else toString (rhe t))
      ∧ composeReply "I\x27m going to Bangalore, what\x27s the weather?"
          ⟨"Bangalore", mkRat 1297 100, mkRat 7759 100⟩
          (some ⟨mkRat 122 5, some false⟩) [] true false
        = "In Bangalore it\x27s currently 24°C and it is not raining right now." := by
  intro city lat lon t r places np
  refine ⟨?_, rhe_nearest t, rfl, by decide⟩
  have e : (composeLines ⟨city, lat, lon⟩ (some ⟨t, r⟩) places true np).head?
      = some (weatherLine city ⟨t, r⟩) := rfl
  rw [e, weatherLine_eq]

/-- C2: with wants_places true, the places header is the fixed
`And these are the places you can go: - - - - -` line when the weather
line was also emitted, and `In {city} these are the places you can go:
- - - - -` when places is the only requested facet and also when both were
requested but the weather lookup returned null (in which case the reply
begins directly with the header, with no blank line); the place names
follow one per line in order, and an empty list is replaced by the fixed
not-found line. -/
theorem C2_places_block :
    ∀ (city : String) (lat lon : ℚ) (wi : WeatherInfo) (w : Option WeatherInfo)
      (ps : List String) (m : String) (nw np : Bool),
      (composeLines ⟨city, lat, lon⟩ (some wi) ps true true
        = weatherLine city wi
          :: "And these are the places you can go: - - - - -"
          :: (if ps = [] then ["I couldn\x27t find clear tourist attractions nearby."]
              else ps))
      ∧ (composeLines ⟨city, lat, lon⟩ w ps false true
        = ("In " ++ city ++ " these are the places you can go: - - - - -")
          :: (if ps = [] then ["I couldn\x27t find clear tourist attractions nearby."]
              else ps))
      ∧ (composeLines ⟨city, lat, lon⟩ none ps true true
        = ("In " ++ city ++ " these are the places you can go: - - - - -")
          :: (if ps = [] then ["I couldn\x27t find clear tourist attractions nearby."]
              else ps))
      ∧ composeReply m ⟨city, lat, lon⟩ w ps nw np
        = String.intercalate "\n" (composeLines ⟨city, lat, lon⟩ w ps nw np) := by
  intro city lat lon wi w ps m nw np
  refine ⟨?_, ?_, ?_, rfl⟩
  · cases ps <;> rfl
  · cases ps <;> rfl
  · cases ps <;> rfl

/-- C3: the flag returned for weather is true exactly when the lowercased
text contains a weather cue, the flag for places exactly when it contains
a place cue, except that when neither cue set matches both flags are set
true; consequently the two flags are never both false. -/
theorem C3_intent_flags :
    ∀ msg : String,
      ((parseIntent msg).2.1
        = (weatherKeywords.any (fun w => containsSub (pyLower msg) w)
            || !(weatherKeywords.any (fun w => containsSub (pyLower msg) w)
              || placesKeywords.any (fun w => containsSub (pyLower msg) w))))
      ∧ ((parseIntent msg).2.2
        = (placesKeywords.any (fun w => containsSub (pyLower msg) w)
            || !(weatherKeywords.any (fun w => containsSub (pyLower msg) w)
              || placesKeywords.any (fun w => containsSub (pyLower msg) w))))
      ∧ ((parseIntent msg).2.1 || (parseIntent msg).2.2) = true := by
  intro msg
  refine ⟨?_, ?_, ?_⟩ <;>
    (cases hkw : weatherKeywords.any (fun w => containsSub (pyLower msg) w) <;>
      cases hkp : placesKeywords.any (fun w => containsSub (pyLower msg) w) <;>
      simp [parseIntent, hkw, hkp])

/-- C4 counterexample: the text `going to area 51.` matches the template
`going to <X>.` with X equal to `area 51`, but the capture class of the
pattern accepts only letters and whitespace, so the pattern fails on the
digits, no other pattern or capitalized token applies, and extraction
falls back to the last whitespace-delimited token `51.` - which is not
X trimmed. -/
theorem C4_counterexample :
    extractPlaceName "going to area 51." = some "51."
    ∧ pyStrip "area 51" = "area 51"
    ∧ ("51." : String) ≠ "area 51" := by
  decide

/-- C4 (amended): extraction applies the three patterns in priority order
first-match-wins, then the last capitalized token, then the last token,
and returns none only when the text has no tokens; and for the template
families: whenever X consists of ASCII letters and whitespace and contains
at least one letter - and, for the second and third template, the
higher-priority patterns find no match in the text - the extracted phrase
for `going to X.`, `go to X,` and `in X?` is X trimmed. -/
theorem C4_extraction :
    (∀ (msg : String) (g : List Char),
      searchPat kwGoingTo false (pyStrip msg).data = some g →
        extractPlaceName msg = some (pyStrip (String.mk g)))
    ∧ (∀ (msg : String) (g : List Char),
      searchPat kwGoingTo false (pyStrip msg).data = none →
      searchPat kwGoTo false (pyStrip msg).data = some g →
        extractPlaceName msg = some (pyStrip (String.mk g)))
    ∧ (∀ (msg : String) (g : List Char),
      searchPat kwGoingTo false (pyStrip msg).data = none →
      searchPat kwGoTo false (pyStrip msg).data = none →
      searchPat kwIn false (pyStrip msg).data = some g →
        extractPlaceName msg = some (pyStrip (String.mk g)))
    ∧ (∀ (msg t : String),
      searchPat kwGoingTo false (pyStrip msg).data = none →
      searchPat kwGoTo false (pyStrip msg).data = none →
      searchPat kwIn false (pyStrip msg).data = none →
      ((pySplit (pyStrip msg)).filter firstCharUpper).getLast? = some t →
        extractPlaceName msg = some t)
    ∧ (∀ msg : String,
      searchPat kwGoingTo false (pyStrip msg).data = none →
      searchPat kwGoTo false (pyStrip msg).data = none →
      searchPat kwIn false (pyStrip msg).data = none →
      ((pySplit (pyStrip msg)).filter firstCharUpper).getLast? = none →
        extractPlaceName msg = (pySplit (pyStrip msg)).getLast?)
    ∧ (∀ msg : String,
      extractPlaceName msg = none → pySplit (pyStrip msg) = [])
    ∧ (∀ X : String,
      (∀ c ∈ X.data, isPhraseChar c = true) →
      (∃ c ∈ X.data, c.isAlpha = true) →
        extractPlaceName ("going to " ++ X ++ ".") = some (pyStrip X))
    ∧ (∀ X : String,
      (∀ c ∈ X.data, isPhraseChar c = true) →
      (∃ c ∈ X.data, c.isAlpha = true) →
      searchPat kwGoingTo false (pyStrip ("go to " ++ X ++ ",")).data = none →
        extractPlaceName ("go to " ++ X ++ ",") = some (pyStrip X))
    ∧ (∀ X : String,
      (∀ c ∈ X.data, isPhraseChar c = true) →
      (∃ c ∈ X.data, c.isAlpha = true) →
      searchPat kwGoingTo false (pyStrip ("in " ++ X ++ "?")).data = none →
      searchPat kwGoTo false (pyStrip ("in " ++ X ++ "?")).data = none →
        extractPlaceName ("in " ++ X ++ "?") = some (pyStrip X)) :=
  ⟨extract_eq_p1, extract_eq_p2, extract_eq_p3, extract_eq_caps,
    extract_eq_tokens, extract_none_tokens, extract_going_to, extract_go_to,
    extract_in⟩

/-- C4 witness: the three templates evaluated at X equal to Goa. -/
theorem C4_extraction_witness :
    extractPlaceName "going to Goa." = some "Goa"
    ∧ extractPlaceName "go to Goa," = some "Goa"
    ∧ extractPlaceName "in Goa?" = some "Goa" := by
  refine ⟨?_, ?_, ?_⟩
  · have h := C4_extraction.2.2.2.2.2.2.1 "Goa" (by decide) (by decide)
    rw [show ("going to " ++ "Goa" ++ "." : String) = "going to Goa." from rfl,
      show pyStrip "Goa" = "Goa" from by decide] at h
    exact h
  · have h := C4_extraction.2.2.2.2.2.2.2.1 "Goa" (by decide) (by decide) (by decide)
    rw [show ("go to " ++ "Goa" ++ "," : String) = "go to Goa," from rfl,
      show pyStrip "Goa" = "Goa" from by decide] at h
    exact h
  · have h := C4_extraction.2.2.2.2.2.2.2.2 "Goa" (by decide) (by decide)
      (by decide) (by decide)
    rw [show ("in " ++ "Goa" ++ "?" : String) = "in Goa?" from rfl,
      show pyStrip "Goa" = "Goa" from by decide] at h
    exact h

/-- C5: place lookup stops at the first matching step: a curated key that
is a substring of the lowercased location name returns that curated list
truncated to max_results without consulting the live POI outcome; else a
curated key one of whose words occurs in the name does the same; else the
live POI fallback is returned with denylisted names removed, deduplicated
by exact name, sorted ascending in string order, capped at max_results,
and equal to the empty list on a transport error; max_results defaults
to 10. -/
theorem C5_places_resolution :
    ∀ (loc : PlaceLocation) (fetched : PoiFetch) (maxR : Nat),
      ((∃ kv ∈ famousPlaces, containsSub (pyLower loc.name) kv.1 = true) →
        ∃ kv ∈ famousPlaces, containsSub (pyLower loc.name) kv.1 = true
          ∧ getPlacesForLocation loc fetched maxR = kv.2.take maxR
          ∧ ∀ fetched2, getPlacesForLocation loc fetched2 maxR
              = getPlacesForLocation loc fetched maxR)
      ∧ ((∀ kv ∈ famousPlaces, containsSub (pyLower loc.name) kv.1 = false) →
        (∃ kv ∈ famousPlaces, (pySplit kv.1).any
            (fun word => containsSub (pyLower loc.name) word) = true) →
        ∃ kv ∈ famousPlaces, (pySplit kv.1).any
            (fun word => containsSub (pyLower loc.name) word) = true
          ∧ getPlacesForLocation loc fetched maxR = kv.2.take maxR
          ∧ ∀ fetched2, getPlacesForLocation loc fetched2 maxR
              = getPlacesForLocation loc fetched maxR)
      ∧ ((∀ kv ∈ famousPlaces, containsSub (pyLower loc.name) kv.1 = false) →
        (∀ kv ∈ famousPlaces, (pySplit kv.1).any
            (fun word => containsSub (pyLower loc.name) word) = false) →
        getPlacesForLocation loc .httpError maxR = []
        ∧ ∀ elements,
            getPlacesForLocation loc (.ok elements) maxR
              = (insertionSortStr (collectNames elements [])).take maxR
            ∧ StrSorted (getPlacesForLocation loc (.ok elements) maxR)
            ∧ (getPlacesForLocation loc (.ok elements) maxR).Nodup
            ∧ (getPlacesForLocation loc (.ok elements) maxR).length ≤ maxR
            ∧ ∀ n ∈ getPlacesForLocation loc (.ok elements) maxR,
                hasBanned n = false ∧ some n ∈ elements)
      ∧ getPlacesForLocation loc fetched = getPlacesForLocation loc fetched 10 := by
  intro loc fetched maxR
  refine ⟨?_, ?_, ?_, rfl⟩
  · intro hex
    have hsome : (famousPlaces.find?
        (fun kv => containsSub (pyLower loc.name) kv.1)).isSome := by
      rw [List.find?_isSome]
      rcases hex with ⟨kv, hm, hp⟩
      exact ⟨kv, hm, hp⟩
    rcases Option.isSome_iff_exists.mp hsome with ⟨kv0, hkv0⟩
    have hp0 := List.find?_some hkv0
    have hm0 := List.mem_of_find?_eq_some hkv0
    refine ⟨kv0, hm0, hp0, ?_, ?_⟩
    · simp only [getPlacesForLocation]
      rw [hkv0]
    · intro fetched2
      simp only [getPlacesForLocation]
      rw [hkv0]
  · intro hnone hex
    have hfind1 : famousPlaces.find?
        (fun kv => containsSub (pyLower loc.name) kv.1) = none := by
      rw [List.find?_eq_none]
      intro kv hm
      rw [hnone kv hm]
      simp
    have hsome : (famousPlaces.find? (fun kv => (pySplit kv.1).any
        (fun word => containsSub (pyLower loc.name) word))).isSome := by
      rw [List.find?_isSome]
      rcases hex with ⟨kv, hm, hp⟩
      exact ⟨kv, hm, hp⟩
    rcases Option.isSome_iff_exists.mp hsome with ⟨kv0, hkv0⟩
    have hp0 := List.find?_some hkv0
    have hm0 := List.mem_of_find?_eq_some hkv0
    refine ⟨kv0, hm0, hp0, ?_, ?_⟩
    · simp only [getPlacesForLocation]
      rw [hfind1, hkv0]
    · intro fetched2
      simp only [getPlacesForLocation]
      rw [hfind1, hkv0]
  · intro hnone1 hnone2
    have hfind1 : famousPlaces.find?
        (fun kv => containsSub (pyLower loc.name) kv.1) = none := by
      rw [List.find?_eq_none]
      intro kv hm
      rw [hnone1 kv hm]
      simp
    have hfind2 : famousPlaces.find? (fun kv => (pySplit kv.1).any
        (fun word => containsSub (pyLower loc.name) word)) = none := by
      rw [List.find?_eq_none]
      intro kv hm
      rw [hnone2 kv hm]
      simp
    have hresult : ∀ elements, getPlacesForLocation loc (.ok elements) maxR
        = (insertionSortStr (collectNames elements [])).take maxR := by
      intro elements
      simp only [getPlacesForLocation]
      rw [hfind1, hfind2]
    constructor
    · simp only [getPlacesForLocation]
      rw [hfind1, hfind2]
    · intro elements
      have hperm := insertionSortStr_perm (collectNames elements [])
      refine ⟨hresult elements, ?_, ?_, ?_, ?_⟩
      · rw [hresult elements]
        exact (insertionSortStr_sorted (collectNames elements [])).sublist
          (List.take_sublist _ _)
      · rw [hresult elements]
        refine List.Nodup.sublist (List.take_sublist _ _) ?_
        exact hperm.symm.nodup (collectNames_nodup elements [] List.nodup_nil)
      · rw [hresult elements]
        exact List.length_take_le _ _
      · intro n hn
        rw [hresult elements] at hn
        have hn1 : n ∈ insertionSortStr (collectNames elements []) :=
          (List.take_sublist _ _).subset hn
        have hn2 : n ∈ collectNames elements [] := hperm.mem_iff.mp hn1
        refine ⟨collectNames_clean elements [] n (by intro a ha; cases ha) hn2, ?_⟩
        rcases collectNames_mem elements [] n hn2 with h | h
        · exact h
        · cases h

/-- C5 witness: the curated substring step at the location Bangalore. -/
theorem C5_places_resolution_witness :
    ∃ kv ∈ famousPlaces,
      containsSub (pyLower (PlaceLocation.mk "Bangalore" (mkRat 0 1) (mkRat 0 1)).name)
        kv.1 = true
      ∧ getPlacesForLocation ⟨"Bangalore", mkRat 0 1, mkRat 0 1⟩ .httpError 10
          = kv.2.take 10
      ∧ ∀ fetched2, getPlacesForLocation ⟨"Bangalore", mkRat 0 1, mkRat 0 1⟩ fetched2 10
          = getPlacesForLocation ⟨"Bangalore", mkRat 0 1, mkRat 0 1⟩ .httpError 10 :=
  (C5_places_resolution ⟨"Bangalore", mkRat 0 1, mkRat 0 1⟩ .httpError 10).1
    (by decide)

/-- C6 counterexample: the reply produced when the resolver finds nothing
for Atlantis uses a Unicode right single quotation mark U+2019 inside the
first word, so it is not equal to the string of the claim, which uses the
ASCII apostrophe. -/
theorem C6_counterexample :
    (handleMessage (fun _ => none) (fun _ => none) (fun _ => []) "Atlantis").reply
      = "It doesn’t know this place exists. Please check the spelling or try another location."
    ∧ (handleMessage (fun _ => none) (fun _ => none) (fun _ => []) "Atlantis").reply
      ≠ "It doesn\x27t know this place exists. Please check the spelling or try another location." := by
  decide

/-- C6 (amended): whenever the resolver returns no location for the
extracted non-empty place phrase, the orchestrator terminates with the
fixed unknown-place reply - whose first word is spelled with the Unicode
right single quotation mark U+2019, not an ASCII apostrophe - and with
place and weather absent and places empty. -/
theorem C6_unknown_place :
    ∀ (geocode : String → Option PlaceLocation)
      (weatherFor : PlaceLocation → Option WeatherInfo)
      (placesFor : PlaceLocation → List String)
      (msg q : String) (nw np : Bool),
      pyStrip msg ≠ "" →
      parseIntent (pyStrip msg) = (some q, nw, np) →
      q ≠ "" →
      geocode q = none →
      handleMessage geocode weatherFor placesFor msg
        = { reply := unknownPlaceReply, place := none, weather := none, places := [] }
      ∧ unknownPlaceReply
        = "It doesn’t know this place exists. Please check the spelling or try another location." := by
  intro g wf pf msg q nw np h1 h2 h3 h4
  refine ⟨?_, rfl⟩
  simp only [handleMessage, if_neg h1, h2, if_neg h3, h4]

/-- C6 witness: the resolver failure on the input Atlantis. -/
theorem C6_unknown_place_witness :
    handleMessage (fun _ => none) (fun _ => none) (fun _ => []) "Atlantis"
      = { reply := unknownPlaceReply, place := none, weather := none, places := [] }
    ∧ unknownPlaceReply
      = "It doesn’t know this place exists. Please check the spelling or try another location." :=
  C6_unknown_place (fun _ => none) (fun _ => none) (fun _ => [])
    "Atlantis" "Atlantis" true true (by decide) (by decide) (by decide) rfl

/-- C7: the claim is right and the code is wrong. The fan-out degradation
holds for transport errors (a failed request yields a null WeatherInfo),
but `response.json()` sits outside the try block of the Open-Meteo client
(and likewise in the Overpass fallback of the places agent), so an HTTP
200 response with an undecodable body raises an uncaught exception that
propagates past the orchestrator boundary instead of degrading to null. -/
theorem C7_fault_model :
    getCurrentWeather (FetchResult.ok none) = Except.error "json.JSONDecodeError"
    ∧ getCurrentWeather FetchResult.httpError = Except.ok none :=
  ⟨rfl, rfl⟩

/-- C8: for whitespace-only input the orchestrator returns the fixed
prompting reply immediately, with place and weather absent and places
empty, independently of all collaborators (none is consulted). -/
theorem C8_empty_input :
    ∀ (geocode : String → Option PlaceLocation)
      (weatherFor : PlaceLocation → Option WeatherInfo)
      (placesFor : PlaceLocation → List String) (msg : String),
      pyStrip msg = "" →
      handleMessage geocode weatherFor placesFor msg
        = { reply := promptReply, place := none, weather := none, places := [] } := by
  intro g wf pf msg h
  simp only [handleMessage, if_pos h]

/-- C8 witness: the whitespace-only input of the scenario. -/
theorem C8_empty_input_witness :
    handleMessage (fun _ => none) (fun _ => none) (fun _ => []) "   "
      = { reply := promptReply, place := none, weather := none, places := [] } :=
  C8_empty_input (fun _ => none) (fun _ => none) (fun _ => []) "   " (by decide)

/-- C9: the reply composer is a pure function of location, weather,
places and the two flags: its output does not depend on the message
argument, and two calls on identical inputs give identical strings. -/
theorem C9_composer_deterministic :
    ∀ (m1 m2 : String) (loc : PlaceLocation) (w : Option WeatherInfo)
      (ps : List String) (nw np : Bool),
      composeReply m1 loc w ps nw np = composeReply m2 loc w ps nw np
      ∧ composeReply m1 loc w ps nw np = composeReply m1 loc w ps nw np := by
  intro m1 m2 loc w ps nw np
  exact ⟨rfl, rfl⟩

/-- C10: whenever the returned result has no place, it also has no
weather and an empty places list - every early-terminating reply carries
no leftover data. -/
theorem C10_result_invariant :
    ∀ (geocode : String → Option PlaceLocation)
      (weatherFor : PlaceLocation → Option WeatherInfo)
      (placesFor : PlaceLocation → List String) (msg : String),
      (handleMessage geocode weatherFor placesFor msg).place = none →
      (handleMessage geocode weatherFor placesFor msg).weather = none
        ∧ (handleMessage geocode weatherFor placesFor msg).places = [] := by
  intro g wf pf msg h
  by_cases h1 : pyStrip msg = ""
  · constructor <;> simp only [handleMessage, if_pos h1]
  · rcases he : parseIntent (pyStrip msg) with ⟨pq, nw, np⟩
    cases pq with
    | none =>
      constructor <;> simp only [handleMessage, if_neg h1, he]
    | some q =>
      by_cases h3 : q = ""
      · constructor <;> simp only [handleMessage, if_neg h1, he, if_pos h3]
      · cases hg : g q with
        | none =>
          constructor <;> simp only [handleMessage, if_neg h1, he, if_neg h3, hg]
        | some loc =>
          exfalso
          simp only [handleMessage, if_neg h1, he, if_neg h3, hg] at h
          exact Option.noConfusion h

/-- C10 witness: a resolver failure input, whose result has no place. -/
theorem C10_result_invariant_witness :
    (handleMessage (fun _ => none) (fun _ => none) (fun _ => []) "Atlantis").weather = none
    ∧ (handleMessage (fun _ => none) (fun _ => none) (fun _ => []) "Atlantis").places = [] :=
  C10_result_invariant (fun _ => none) (fun _ => none) (fun _ => []) "Atlantis" (by decide)
